import Mathlib

/-!
Shallow embedding of `typed-config` (`src/index.ts`): a configuration
resolver that merges defaults, a JSON file, a prefixed sub-tree of that
file, and parsed command-line arguments, validates the result against an
external schema, and exposes a dotted-path accessor.

JavaScript values flowing through the program are JSON-compatible, so
they are modelled by the inductive `JVal`; JavaScript `undefined` is
modelled by `Option JVal` (`none` = undefined), distinct from the JSON
value `null` (`JVal.null`).  Objects are modelled as insertion-ordered
association lists of string keys (JavaScript objects have unique keys;
assignment replaces an existing key in place and appends a new one).
-/

namespace TypedConfig

/-- JSON-compatible JavaScript value.  Numbers are modelled as integers
(all values appearing in the program's documented behaviour are
integral). -/
inductive JVal where
  | null : JVal
  | bool (b : Bool) : JVal
  | num (n : Int) : JVal
  | str (s : String) : JVal
  | arr (elems : List JVal) : JVal
  | obj (fields : List (String × JVal)) : JVal
deriving Repr

/-- JavaScript `typeof` on a `JVal`.  Note `typeof null`, `typeof` of an
array, and `typeof` of a plain object are all the string `"object"`. -/
def jsTypeof : JVal → String
  | .null => "object"
  | .bool _ => "boolean"
  | .num _ => "number"
  | .str _ => "string"
  | .arr _ => "object"
  | .obj _ => "object"

/-- `Array.isArray`. -/
def JVal.isArr : JVal → Bool
  | .arr _ => true
  | _ => false

/-- Whether the value is a mapping (plain string-keyed object). -/
def JVal.isObj : JVal → Bool
  | .obj _ => true
  | _ => false

/-- Whether the value is a string. -/
def JVal.isStr : JVal → Bool
  | .str _ => true
  | _ => false

/-- JavaScript truthiness of a defined value. -/
def jsTruthy : JVal → Bool
  | .null => false
  | .bool b => b
  | .num n => n != 0
  | .str s => s != ""
  | .arr _ => true
  | .obj _ => true

/-- JavaScript truthiness where `none` models `undefined`. -/
def jsTruthyO : Option JVal → Bool
  | none => false
  | some v => jsTruthy v

/-- Property read `o[key]` on an object modelled as an association list
(first binding wins; lists modelling JavaScript objects are
duplicate-free). -/
def objGet : List (String × JVal) → String → Option JVal
  | [], _ => none
  | (k, v) :: rest, key => if k = key then some v else objGet rest key

/-- Property write `o[key] = v`: replaces an existing key in place,
appends a new key at the end (JavaScript property-insertion order). -/
def setKey : List (String × JVal) → String → JVal → List (String × JVal)
  | [], key, v => [(key, v)]
  | (k, w) :: rest, key, v =>
    if k = key then (key, v) :: rest else (k, w) :: setKey rest key v

/-- One step of `Array.prototype.concat` argument handling, which is
also the coercion `Array.isArray(x) ? x : [x]`: an array argument is
spread one level, any other argument contributes itself. -/
def concatSpread : JVal → List JVal
  | .arr xs => xs
  | v => [v]

/-- Errors of the resolver, one constructor per distinguishable failure
mode of the source (the raw `JSON.parse` syntax error, the merge
conflict `Error`, the schema `parse` failure, and the accessor's
undefined-key `Error`). -/
inductive ConfigError where
  | configFileParse (path : String)
  | mergeConflict (key : String) (srcType : String)
  | schemaValidation (detail : String)
  | undefinedConfigKey (keyPath : String)
deriving Repr, DecidableEq

/-
The merge customizer `deepConfigMerge(objValue, srcValue, key)` from
`src/index.ts` lines 87-103, together with the lodash
`mergeWith({}, objValue, srcValue, deepConfigMerge)` it recurses
through.  `mergeWith({}, o, s, customizer)` first folds `o` into the
fresh empty accumulator — since every key of `o` is absent there, the
customizer returns `o`'s values verbatim, so the accumulator becomes a
copy of `o`'s fields in order — and then folds `s` in key by key,
calling the customizer on each pair.  `mergeFields` is that second
phase for an object source; `mergeArrFields` is the same phase when the
source is an array (lodash iterates its indices `"0"`, `"1"`, ... as
keys); a `null` source is skipped by lodash (it has no enumerable
keys).  Recursive calls always receive a defined `srcValue` (JSON data
contains no `undefined` values), so the defined-source worker
`dcMergeDefined` carries the recursion; `deepConfigMerge` adds the two
leading `undefined` checks of the source exactly as written.
-/
mutual

/-- Worker for `deepConfigMerge` once `srcValue` is known to be defined:
the `objValue === undefined` check (line 88), then the
`Array.isArray(objValue)` branch (lines 92-94, note the spread
`concat(...)` flattening array elements of the source one level), then
the object branch with the `typeof srcValue !== 'object'` conflict
check (lines 95-99), then the scalar fall-through (line 101). -/
def dcMergeDefined : Option JVal → JVal → String → Except ConfigError JVal
  | none, srcValue, _ => .ok srcValue
  | some objValue, srcValue, key =>
    match objValue with
    | .arr xs => .ok (.arr (xs ++ (concatSpread srcValue).flatMap concatSpread))
    | .obj fields =>
      if jsTypeof srcValue = "object" then
        match srcValue with
        | .obj sfields => (mergeFields fields sfields).map JVal.obj
        | .arr elems => (mergeArrFields fields 0 elems).map JVal.obj
        | _ => .ok (.obj fields)
      else .error (.mergeConflict key (jsTypeof srcValue))
    | _ => .ok srcValue

/-- Fold the fields of an object source into the accumulator, key by
key, through the customizer (the second phase of
`mergeWith({}, objValue, srcValue, deepConfigMerge)`). -/
def mergeFields (base : List (String × JVal)) :
    List (String × JVal) → Except ConfigError (List (String × JVal))
  | [] => .ok base
  | (k, v) :: rest =>
    match dcMergeDefined (objGet base k) v k with
    | .error e => .error e
    | .ok r => mergeFields (setKey base k r) rest

/-- Fold the elements of an array source into the accumulator under
their index keys `"0"`, `"1"`, ... (lodash iterates an array source by
its own enumerable index keys). -/
def mergeArrFields (base : List (String × JVal)) (i : Nat) :
    List JVal → Except ConfigError (List (String × JVal))
  | [] => .ok base
  | v :: rest =>
    match dcMergeDefined (objGet base (toString i)) v (toString i) with
    | .error e => .error e
    | .ok r => mergeArrFields (setKey base (toString i) r) (i + 1) rest

end

/-- The customizer `deepConfigMerge` exactly as in the source
(lines 87-103): the two `undefined` checks, then the defined-source
worker. -/
def deepConfigMerge : Option JVal → Option JVal → String →
    Except ConfigError (Option JVal)
  | none, srcValue, _ => .ok srcValue
  | some objValue, none, _ => .ok (some objValue)
  | some objValue, some srcValue, key =>
    (dcMergeDefined (some objValue) srcValue key).map some

/-- Fold one source into the top-level accumulator of
`mergeWith({}, defaults, rawData, prefixedRaw, parsedCommandLine, deepConfigMerge)`
(line 156).  lodash iterates a source's own enumerable keys: an object
by its fields, an array by its indices, a string by its character
indices, and skips sources with no enumerable keys (`null`, booleans,
numbers). -/
def strFields (s : String) : List (String × JVal) :=
  s.data.enum.map fun p => (toString p.1, .str (String.mk [p.2]))

def mergeOne (acc : List (String × JVal)) (src : JVal) :
    Except ConfigError (List (String × JVal)) :=
  match src with
  | .obj fields => mergeFields acc fields
  | .arr elems => mergeArrFields acc 0 elems
  | .str s => mergeFields acc (strFields s)
  | _ => .ok acc

/-- The whole top-level `mergeWith` fold of line 156, starting from the
fresh empty target object. -/
def mergeSources (sources : List JVal) :
    Except ConfigError (List (String × JVal)) :=
  sources.foldlM mergeOne []

/-- JavaScript `String.prototype.split` with the one-character
separator `'.'`: splitting the character list on `'.'`, where the empty
string splits to `[""]` and adjacent separators produce empty
segments. -/
def splitOnDot : List Char → List (List Char)
  | [] => [[]]
  | c :: rest =>
    match splitOnDot rest with
    | [] => [[]]
    | seg :: segs => if c = '.' then [] :: seg :: segs else (c :: seg) :: segs

/-- `s.split('.')` on a string. -/
def jsSplitDot (s : String) : List String :=
  (splitOnDot s.data).map String.mk

/-- Whether a property key is the canonical decimal spelling of an
array index (digits only, no leading zero except `"0"` itself), as
JavaScript array index keys are. -/
def isCanonicalIndex : List Char → Bool
  | [] => false
  | ['0'] => true
  | c :: rest => c.isDigit && (c != '0') && rest.all (fun d => d.isDigit)

/-- Decimal value of a digit list (most significant first). -/
def digitsToNat : List Char → Nat → Nat
  | [], acc => acc
  | c :: rest, acc => digitsToNat rest (acc * 10 + (c.toNat - 48))

/-- Parse a property key as a canonical array index. -/
def parseIndex (key : String) : Option Nat :=
  if isCanonicalIndex key.data then some (digitsToNat key.data 0) else none

/-- Property read `a[k]` restricted to own properties, as used by the
walks `reduce((acc, k) => acc?.[k], data)` (lines 155 and 165): object
fields, array indices and `length`, string character indices and
`length`.  A numeric segment must be the canonical decimal spelling of
the index.  `null`, booleans and numbers have no own properties (their
prototype members are not JSON-representable data and are never
configuration values). -/
def jsIndex : JVal → String → Option JVal
  | .obj fields, key => objGet fields key
  | .arr elems, key =>
    if key = "length" then some (.num (elems.length : Int))
    else
      match parseIndex key with
      | some i => elems.get? i
      | none => none
  | .str s, key =>
    if key = "length" then some (.num (s.length : Int))
    else
      match parseIndex key with
      | some i => (s.data.get? i).map (fun c => .str (String.mk [c]))
      | none => none
  | _, _ => none

/-- The walk `segs.reduce((acc, k) => acc?.[k], init)`, written as the
left fold it is: one step per segment, where the optional chaining `?.`
short-circuits to `undefined` once the accumulator is `undefined`
(`jsIndex` on `null` is `none`, matching `null?.[k]`). -/
def jsWalk : Option JVal → List String → Option JVal
  | acc, [] => acc
  | acc, key :: rest => jsWalk (acc.bind (fun a => jsIndex a key)) rest

/-- The prefix resolution of line 155:
`prefixPath.split('.').reduce((acc, k) => acc?.[k], rawJsonData)`. -/
def resolvePrefixPath (rawJsonData : JVal) (prefixPath : String) : Option JVal :=
  jsWalk (some rawJsonData) (jsSplitDot prefixPath)

/-- The `jsonFile` option: `boolean | string` (`true` by default). -/
inductive JsonFileOpt where
  | flag (b : Bool)
  | path (p : String)
deriving Repr, DecidableEq

/-- Truthiness of `options.jsonFile` (`!!options.jsonFile`, line 149). -/
def jsonFileTruthy : JsonFileOpt → Bool
  | .flag b => b
  | .path p => p != ""

/-- `typeof options.jsonFile === 'string' ? options.jsonFile : null`
(line 146). -/
def jsonFileString : JsonFileOpt → JVal
  | .path p => .str p
  | .flag _ => .null

/-- JavaScript `a || b` where `a` may be `undefined` (`none`). -/
def jsOr : Option JVal → JVal → JVal
  | some v, b => if jsTruthy v then v else b
  | none, b => b

/-- JSON file path resolution (lines 144-147):
`parsedCommandLine.configJsonFile || process.env.CONFIG_JSON_FILE ||
(typeof options.jsonFile === 'string' ? options.jsonFile : null) ||
'./config.json'`.  Environment variable values are strings; an unset
variable is `undefined`. -/
def resolveConfigJsonFile (parsedCommandLine : List (String × JVal))
    (envConfigJsonFile : Option String) (jsonFile : JsonFileOpt) : JVal :=
  jsOr (objGet parsedCommandLine "configJsonFile")
    (jsOr (envConfigJsonFile.map JVal.str)
      (jsOr (some (jsonFileString jsonFile)) (.str "./config.json")))

/-- The file system, external collaborator of the resolver: a path maps
to `none` when no file exists there, to `some none` when a file exists
whose content is not valid JSON, and to `some (some v)` when a file
exists and parses to `v`. -/
def FileSystem : Type := String → Option (Option JVal)

/-- `fs.existsSync(configJsonFile)` (line 149).  Node's `existsSync`
returns `false` (rather than throwing) when the argument is not a valid
path value, so a non-string resolved path reads no file. -/
def fileExists (fsGet : FileSystem) : JVal → Bool
  | .str p => (fsGet p).isSome
  | _ => false

/-- Lines 149-151: read and parse the JSON file when JSON-file usage is
truthy and a file exists at the resolved path, else the empty object.
A file that exists but is not valid JSON makes `JSON.parse` throw,
modelled as `ConfigError.configFileParse`. -/
def readRawData (jsonFile : JsonFileOpt) (configJsonFile : JVal)
    (fsGet : FileSystem) : Except ConfigError JVal :=
  if jsonFileTruthy jsonFile && fileExists fsGet configJsonFile then
    match configJsonFile with
    | .str p =>
      match fsGet p with
      | some (some v) => .ok v
      | _ => .error (.configFileParse p)
    | _ => .ok (.obj [])
  else .ok (.obj [])

/-- The options bundle after the defaulting of lines 113-118.
`defaultsFn` is the caller's zero-argument defaults function, modelled
by the value it returns (it is invoked exactly once, at resolution
time); `none` models an absent function. -/
structure ConfigOptions where
  prefixPath : Option String := none
  jsonFile : JsonFileOpt := .flag true
  commandLine : Bool := true
  defaultsFn : Option JVal := none

/-- The resolver's external world: the output of the command-line
tokenizer on `process.argv.slice(2)` (an external collaborator, so its
parsed mapping is an input), the `CONFIG_JSON_FILE` environment
variable, and the file system. -/
structure World where
  parsedArgs : List (String × JVal)
  envConfigJsonFile : Option String
  fsGet : FileSystem

/-- `options.defaultsFn?.() ?? {}` (line 154): absent function or a
nullish returned value degrade to the empty object. -/
def defaultsValue : Option JVal → JVal
  | none => .obj []
  | some .null => .obj []
  | some v => v

/-- The prefixed sub-tree source of lines 155-156:
`options.prefix && split-walk` then `?? {}`.  A nullish or absent
prefix contributes the empty object; a falsy (empty-string) prefix
short-circuits `&&` to the empty string itself, which the merge then
skips as a key-less source; a walk result that is `undefined` or `null`
is replaced by the empty object by `??`. -/
def prefixedSource (rawData : JVal) : Option String → JVal
  | none => .obj []
  | some p =>
    if p = "" then .str ""
    else
      match resolvePrefixPath rawData p with
      | none => .obj []
      | some .null => .obj []
      | some v => v

/-- Result of resolver construction: the process exits on `--help`
before any merge, exits after printing on `--print-config` after
successful merge and validation, yields the validated configuration, or
fails with a fatal error. -/
inductive Outcome where
  | exitHelp
  | exitPrintConfig (data : JVal)
  | ok (data : JVal)
  | err (e : ConfigError)
deriving Repr

/-- Whether two outcomes are both `ok`. -/
def Outcome.isOk : Outcome → Bool
  | .ok _ => true
  | _ => false

/-- The body of `getConfigGetter` (lines 112-162) up to returning the
accessor: defaulted options, the parsed command line (the empty object
when command-line processing is disabled), the `--help` early exit, the
file path resolution, the file read, the four-source merge of line 156,
the external schema validation (`schema.parse`, an external
collaborator passed in as a function), and the `--print-config` exit.
The warning about unrecognized positionals (lines 130-132) only logs
and is omitted. -/
def resolveConfig (schemaParse : JVal → Except String JVal)
    (options : ConfigOptions) (w : World) : Outcome :=
  let parsedCommandLine := if options.commandLine then w.parsedArgs else []
  if jsTruthyO (objGet parsedCommandLine "help") then .exitHelp
  else
    let configJsonFile :=
      resolveConfigJsonFile parsedCommandLine w.envConfigJsonFile options.jsonFile
    match readRawData options.jsonFile configJsonFile w.fsGet with
    | .error e => .err e
    | .ok rawData =>
      match mergeSources [defaultsValue options.defaultsFn, rawData,
          prefixedSource rawData options.prefixPath, .obj parsedCommandLine] with
      | .error e => .err e
      | .ok merged =>
        match schemaParse (.obj merged) with
        | .error d => .err (.schemaValidation d)
        | .ok data =>
          if jsTruthyO (objGet parsedCommandLine "printConfig") then
            .exitPrintConfig data
          else .ok data

/-- The returned accessor (lines 164-171): split the key on `.`, walk
the validated configuration, return the value when it is not
`undefined`; otherwise return the fallback when one was supplied, and
fail naming the key path when none was.  `defaultValue = none` models
both an omitted fallback argument and an explicitly passed `undefined`
— the code distinguishes neither, testing `defaultValue === undefined`. -/
def configGet (data : JVal) (key : String) (defaultValue : Option JVal) :
    Except ConfigError JVal :=
  match jsWalk (some data) (jsSplitDot key) with
  | some value => .ok value
  | none =>
    match defaultValue with
    | none => .error (.undefinedConfigKey key)
    | some d => .ok d

/-! ### Helper lemmas -/

/-- A list none of whose elements is an array is left unchanged by one
level of `concat` spreading. -/
theorem flatMap_concatSpread_of_no_arr (ys : List JVal)
    (h : ∀ e ∈ ys, e.isArr = false) : ys.flatMap concatSpread = ys := by
  induction ys with
  | nil => rfl
  | cons a t ih =>
    have ha : a.isArr = false := h a (by simp)
    have ht : t.flatMap concatSpread = t := ih (fun e he => h e (by simp [he]))
    cases a <;> simp_all [concatSpread, JVal.isArr]

/-- Once the walk accumulator is `undefined`, it stays `undefined`. -/
theorem jsWalk_none (segs : List String) : jsWalk none segs = none := by
  induction segs with
  | nil => rfl
  | cons k rest ih => simpa [jsWalk] using ih

/-- The walk processes segments left to right. -/
theorem jsWalk_append (acc : Option JVal) (s1 s2 : List String) :
    jsWalk acc (s1 ++ s2) = jsWalk (jsWalk acc s1) s2 := by
  induction s1 generalizing acc with
  | nil => rfl
  | cons k rest ih => simp [jsWalk, ih]

/-- JavaScript `a || b` falls through on a falsy left operand. -/
theorem jsOr_falsy (a : Option JVal) (b : JVal) (h : jsTruthyO a = false) :
    jsOr a b = b := by
  cases a <;> simp_all [jsOr, jsTruthyO]

/-- JavaScript `a || b` keeps a truthy left operand. -/
theorem jsOr_truthy (v : JVal) (b : JVal) (h : jsTruthy v = true) :
    jsOr (some v) b = v := by
  simp [jsOr, h]

/-! ### Claims -/

/-- C1: folding the four sources (defaults, full JSON-file content,
prefixed sub-tree, command-line mapping) with the deep merge in that
order makes each later source override the accumulated result of the
earlier ones on scalar conflicts: with defaults `{a:1, b:1}`, JSON file
`{a:2}` and command line `{a:3}`, the resolved configuration has
`a == 3` and `b == 1`. -/
theorem c1_precedence_fold :
    resolveConfig Except.ok
        { defaultsFn := some (.obj [("a", .num 1), ("b", .num 1)]) }
        { parsedArgs := [("_", .arr []), ("a", .num 3)],
          envConfigJsonFile := none,
          fsGet := fun p =>
            if p = "./config.json" then some (some (.obj [("a", .num 2)])) else none }
      = .ok (.obj [("a", .num 3), ("b", .num 1), ("_", .arr [])])
    ∧ configGet (.obj [("a", .num 3), ("b", .num 1), ("_", .arr [])]) "a" none
      = .ok (.num 3)
    ∧ configGet (.obj [("a", .num 3), ("b", .num 1), ("_", .arr [])]) "b" none
      = .ok (.num 1) :=
  ⟨rfl, rfl, rfl⟩

/-- C2 counterexample: merging the sequence `[1]` with the sequence
`[[2,3]]` does not yield `[1]` followed by the single element `[2,3]`:
the spread in `objValue.concat(...srcValue)` flattens the sequence
element one level, yielding `[1,2,3]`. -/
theorem c2_counterexample :
    deepConfigMerge (some (.arr [.num 1])) (some (.arr [.arr [.num 2, .num 3]])) "k"
      = .ok (some (.arr [.num 1, .num 2, .num 3]))
    ∧ JVal.arr [.num 1, .num 2, .num 3]
      ≠ JVal.arr ([.num 1] ++ [.arr [.num 2, .num 3]]) := by
  refine ⟨rfl, ?_⟩
  simp

/-- C2 (amended): for sequences A and B, `merge(A,B)` is A followed by
all elements of B, preserving order and yielding length
`len(A) + len(B)`, provided no element of B is itself a sequence
(sequence elements of B are spliced in flat, one level, by the spread
in `concat`); mappings and scalars as elements of B are appended
verbatim, and a non-sequence B is appended as a single element. -/
theorem c2_amended_append (xs ys : List JVal) (sv : JVal) (key : String)
    (h : ∀ e ∈ ys, e.isArr = false) :
    deepConfigMerge (some (.arr xs)) (some (.arr ys)) key
      = .ok (some (.arr (xs ++ ys)))
    ∧ (xs ++ ys).length = xs.length + ys.length
    ∧ (sv.isArr = false →
        deepConfigMerge (some (.arr xs)) (some sv) key
          = .ok (some (.arr (xs ++ [sv])))) := by
  refine ⟨?_, by simp, ?_⟩
  · show (dcMergeDefined (some (.arr xs)) (.arr ys) key).map some = _
    simp [dcMergeDefined, concatSpread, flatMap_concatSpread_of_no_arr ys h,
      Except.map]
  · intro hsv
    show (dcMergeDefined (some (.arr xs)) sv key).map some = _
    cases sv <;> simp_all [dcMergeDefined, concatSpread, JVal.isArr, Except.map]

/-- Witness for `c2_amended_append` at A = `[1]`,
B = `[2, {a:4}]` (no sequence elements), and the non-sequence
override `"s"`. -/
theorem c2_amended_append_witness :
    deepConfigMerge (some (.arr [.num 1]))
        (some (.arr [.num 2, .obj [("a", .num 4)]])) "k"
      = .ok (some (.arr ([.num 1] ++ [.num 2, .obj [("a", .num 4)]])))
    ∧ deepConfigMerge (some (.arr [.num 1])) (some (.str "s")) "k"
      = .ok (some (.arr ([.num 1] ++ [.str "s"]))) := by
  refine
    ⟨(c2_amended_append [.num 1] [.num 2, .obj [("a", .num 4)]] (.str "s") "k" ?_).1,
     (c2_amended_append [.num 1] [.num 2, .obj [("a", .num 4)]] (.str "s") "k" ?_).2.2
       ?_⟩ <;> decide

/-- C3 counterexample: merging the mapping `{a:1}` with the non-mapping
override `null` does not fail with a merge conflict — `typeof null` is
`"object"`, so the conflict check passes and lodash then skips the
key-less `null` source, returning the base mapping unchanged. -/
theorem c3_counterexample :
    deepConfigMerge (some (.obj [("a", .num 1)])) (some .null) "k"
      = .ok (some (.obj [("a", .num 1)]))
    ∧ JVal.isObj .null = false :=
  ⟨rfl, rfl⟩

/-- C3 (amended): for a mapping base, an override whose JavaScript
`typeof` is not `"object"` (a boolean, number, or string) fails with a
`MergeConflictError` naming the offending key and the `typeof` of the
override; a mapping override is merged key by key recursively; a `null`
override (whose `typeof` is `"object"`) is skipped, leaving the base
mapping unchanged. -/
theorem c3_amended_conflict (fields : List (String × JVal)) (sv : JVal)
    (key : String) :
    (jsTypeof sv ≠ "object" →
      deepConfigMerge (some (.obj fields)) (some sv) key
        = .error (.mergeConflict key (jsTypeof sv)))
    ∧ (∀ sfields, sv = .obj sfields →
        deepConfigMerge (some (.obj fields)) (some sv) key
          = (mergeFields fields sfields).map (fun r => some (.obj r)))
    ∧ deepConfigMerge (some (.obj fields)) (some .null) key
        = .ok (some (.obj fields)) := by
  refine ⟨?_, ?_, rfl⟩
  · intro hne
    show (dcMergeDefined (some (.obj fields)) sv key).map some = _
    cases sv <;> simp_all [dcMergeDefined, jsTypeof, Except.map]
  · rintro sfields rfl
    show (dcMergeDefined (some (.obj fields)) (.obj sfields) key).map some = _
    simp only [dcMergeDefined, jsTypeof, if_pos rfl]
    cases h : mergeFields fields sfields <;> simp [h, Except.map]

/-- Witness for `c3_amended_conflict`: a string override conflicts, a
mapping override recursively merges, a `null` override is skipped. -/
theorem c3_amended_conflict_witness :
    deepConfigMerge (some (.obj [("a", .num 1)])) (some (.str "x")) "b"
      = .error (.mergeConflict "b" "string")
    ∧ deepConfigMerge (some (.obj [("a", .num 1)])) (some (.obj [("a", .num 2)])) "b"
      = (mergeFields [("a", .num 1)] [("a", .num 2)]).map (fun r => some (.obj r))
    ∧ deepConfigMerge (some (.obj [("a", .num 1)])) (some .null) "b"
      = .ok (some (.obj [("a", .num 1)])) := by
  refine ⟨?_, ?_, (c3_amended_conflict [("a", .num 1)] .null "b").2.2⟩
  · exact (c3_amended_conflict [("a", .num 1)] (.str "x") "b").1 (by decide)
  · exact (c3_amended_conflict [("a", .num 1)] (.obj [("a", .num 2)]) "b").2.1 _ rfl

/-- C4: when a prefix is supplied and both the prefixed sub-tree and a
root-level key of the same name are present in the JSON file, the
prefixed sub-tree is folded in after the unprefixed file content and
wins on scalar conflict: with JSON file `{apps:{x:{v:1}}, v:2}` and
prefix `apps.x`, the resolved value of `v` is `1`. -/
theorem c4_prefix_hoist :
    resolveConfig Except.ok
        { prefixPath := some "apps.x", jsonFile := .path "cfg.json",
          commandLine := false }
        { parsedArgs := [],
          envConfigJsonFile := none,
          fsGet := fun p =>
            if p = "cfg.json" then
              some (some (.obj [("apps", .obj [("x", .obj [("v", .num 1)])]),
                ("v", .num 2)]))
            else none }
      = .ok (.obj [("apps", .obj [("x", .obj [("v", .num 1)])]), ("v", .num 1)])
    ∧ configGet (.obj [("apps", .obj [("x", .obj [("v", .num 1)])]), ("v", .num 1)])
        "v" none = .ok (.num 1) :=
  ⟨rfl, rfl⟩

/-- C5 counterexample: walking the prefix path `a.0` through
`{a: [5]}` descends the intermediate segment `a` even though its value
`[5]` is not a mapping — arrays are indexable by numeric segments — and
yields `5` rather than `undefined`. -/
theorem c5_counterexample :
    resolvePrefixPath (.obj [("a", .arr [.num 5])]) "a.0" = some (.num 5)
    ∧ jsWalk (some (.obj [("a", .arr [.num 5])])) ["a"] = some (.arr [.num 5])
    ∧ JVal.isObj (.arr [.num 5]) = false :=
  ⟨rfl, rfl, rfl⟩

/-- C5 (amended): prefix resolution splits the path on `.` and walks
the data one segment at a time, yielding `undefined` — never an
error — whenever the path does not exist: once a step yields
`undefined` every later step does, and a step whose value is `null`, a
boolean, or a number yields `undefined` at the next segment.
Intermediate sequences (and strings) are however traversable by
canonical numeric index segments, so an intermediate value that is not
a mapping does not by itself force `undefined`. -/
theorem c5_amended_walk (data v : JVal) (pre rest : List String) (k : String) :
    (∀ p, resolvePrefixPath data p = jsWalk (some data) (jsSplitDot p))
    ∧ (jsWalk (some data) pre = none → jsWalk (some data) (pre ++ rest) = none)
    ∧ (jsWalk (some data) pre = some v → v.isObj = false → v.isArr = false →
        v.isStr = false → jsWalk (some data) (pre ++ k :: rest) = none) := by
  refine ⟨fun p => rfl, ?_, ?_⟩
  · intro h
    rw [jsWalk_append, h, jsWalk_none]
  · intro h ho ha hs
    rw [jsWalk_append, h]
    cases v <;>
      simp_all [JVal.isObj, JVal.isArr, JVal.isStr, jsWalk, jsIndex, jsWalk_none]

/-- Witness for `c5_amended_walk`: in `{a: 7}` the missing segment
`missing` yields `undefined` and stays `undefined`, and descending past
the number at `a` yields `undefined`. -/
theorem c5_amended_walk_witness :
    jsWalk (some (.obj [("a", .num 7)])) (["missing"] ++ ["x"]) = none
    ∧ jsWalk (some (.obj [("a", .num 7)])) (["a"] ++ "z" :: []) = none := by
  refine
    ⟨(c5_amended_walk (.obj [("a", .num 7)]) (.num 7) ["missing"] ["x"] "x").2.1 rfl,
     (c5_amended_walk (.obj [("a", .num 7)]) (.num 7) ["a"] [] "z").2.2 rfl rfl rfl
       rfl⟩

/-- C6: the JSON file path is resolved by the first truthy value among
the `--config-json-file` command-line value, the `CONFIG_JSON_FILE`
environment variable, the string value of the `jsonFile` option, and
the literal `./config.json`; and when the `jsonFile` option is `false`,
no file is read regardless of the command-line or environment
values. -/
theorem c6_file_resolution_order (cli : List (String × JVal))
    (env : Option String) (opt : JsonFileOpt) :
    (∀ s, objGet cli "configJsonFile" = some (.str s) → s ≠ "" →
      resolveConfigJsonFile cli env opt = .str s)
    ∧ (jsTruthyO (objGet cli "configJsonFile") = false →
        ∀ e, env = some e → e ≠ "" → resolveConfigJsonFile cli env opt = .str e)
    ∧ (jsTruthyO (objGet cli "configJsonFile") = false →
        jsTruthyO (env.map JVal.str) = false →
        ∀ p, opt = .path p → p ≠ "" → resolveConfigJsonFile cli env opt = .str p)
    ∧ (jsTruthyO (objGet cli "configJsonFile") = false →
        jsTruthyO (env.map JVal.str) = false →
        jsTruthy (jsonFileString opt) = false →
        resolveConfigJsonFile cli env opt = .str "./config.json")
    ∧ (∀ path fsGet, readRawData (.flag false) path fsGet = .ok (.obj [])) := by
  refine ⟨?_, ?_, ?_, ?_, ?_⟩
  · intro s h hs
    rw [resolveConfigJsonFile, h, jsOr_truthy]
    simp [jsTruthy, hs]
  · intro hc e he hne
    rw [resolveConfigJsonFile, jsOr_falsy _ _ hc, he]
    show jsOr (some (.str e)) _ = _
    rw [jsOr_truthy]
    simp [jsTruthy, hne]
  · intro hc henv p hp hpne
    rw [resolveConfigJsonFile, jsOr_falsy _ _ hc, jsOr_falsy _ _ henv, hp]
    rw [show jsonFileString (.path p) = .str p from rfl, jsOr_truthy]
    simp [jsTruthy, hpne]
  · intro hc henv hopt
    rw [resolveConfigJsonFile, jsOr_falsy _ _ hc, jsOr_falsy _ _ henv,
      jsOr_falsy]
    simpa [jsTruthyO] using hopt
  · intro path fsGet
    simp [readRawData, jsonFileTruthy]

/-- Witness for `c6_file_resolution_order`, one application per rung of
the resolution ladder. -/
theorem c6_file_resolution_order_witness :
    resolveConfigJsonFile [("configJsonFile", .str "c.json")] (some "e.json")
        (.path "o.json") = .str "c.json"
    ∧ resolveConfigJsonFile [] (some "e.json") (.path "o.json") = .str "e.json"
    ∧ resolveConfigJsonFile [] none (.path "o.json") = .str "o.json"
    ∧ resolveConfigJsonFile [] none (.flag true) = .str "./config.json"
    ∧ readRawData (.flag false) (.str "x.json")
        (fun _ => some (some (.obj [("a", .num 1)]))) = .ok (.obj []) := by
  refine ⟨?_, ?_, ?_, ?_, ?_⟩
  · exact (c6_file_resolution_order [("configJsonFile", .str "c.json")]
      (some "e.json") (.path "o.json")).1 "c.json" rfl (by decide)
  · exact (c6_file_resolution_order [] (some "e.json") (.path "o.json")).2.1
      rfl "e.json" rfl (by decide)
  · exact (c6_file_resolution_order [] none (.path "o.json")).2.2.1
      rfl rfl "o.json" rfl (by decide)
  · exact (c6_file_resolution_order [] none (.flag true)).2.2.2.1 rfl rfl rfl
  · exact (c6_file_resolution_order [] none (.flag true)).2.2.2.2 (.str "x.json")
      (fun _ => some (some (.obj [("a", .num 1)])))

/-- C7: with JSON-file usage enabled, a file that exists at the
resolved path but is not valid JSON makes resolution fail with a
`ConfigFileParseError`, while a missing file at the resolved path is no
error — the file source degrades to an empty mapping and resolution
succeeds from the remaining sources (here defaults and command line
alone). -/
theorem c7_file_parse_and_missing (opt : JsonFileOpt) (s : String)
    (fsGet : FileSystem) :
    (jsonFileTruthy opt = true → fsGet s = some none →
      readRawData opt (.str s) fsGet = .error (.configFileParse s))
    ∧ (jsonFileTruthy opt = true → fsGet s = none →
        readRawData opt (.str s) fsGet = .ok (.obj []))
    ∧ resolveConfig Except.ok {}
        { parsedArgs := [], envConfigJsonFile := none,
          fsGet := fun p => if p = "./config.json" then some none else none }
      = .err (.configFileParse "./config.json")
    ∧ resolveConfig Except.ok { defaultsFn := some (.obj [("d", .num 4)]) }
        { parsedArgs := [("c", .num 5), ("_", .arr [])],
          envConfigJsonFile := none, fsGet := fun _ => none }
      = .ok (.obj [("d", .num 4), ("c", .num 5), ("_", .arr [])]) := by
  refine ⟨?_, ?_, rfl, rfl⟩
  · intro ht hf
    simp [readRawData, fileExists, ht, hf]
  · intro ht hf
    simp [readRawData, fileExists, ht, hf]

/-- Witness for `c7_file_parse_and_missing` at a file system holding
invalid JSON at `bad.json` and nothing at `gone.json`. -/
theorem c7_file_parse_and_missing_witness :
    readRawData (.flag true) (.str "bad.json")
        (fun p => if p = "bad.json" then some none else none)
      = .error (.configFileParse "bad.json")
    ∧ readRawData (.flag true) (.str "gone.json") (fun _ => none)
      = .ok (.obj []) := by
  refine
    ⟨(c7_file_parse_and_missing (.flag true) "bad.json"
        (fun p => if p = "bad.json" then some none else none)).1 rfl rfl,
     (c7_file_parse_and_missing (.flag true) "gone.json" (fun _ => none)).2.1
        rfl rfl⟩

/-- C8: the accessor splits the key path on `.` and walks the validated
configuration one segment at a time; when the final value is present
(not `undefined`) it is returned, when absent and a fallback was
supplied the fallback is returned, and when absent with no fallback it
fails with an `UndefinedConfigKeyError` naming the key path. -/
theorem c8_accessor (data v d : JVal) (key : String) (fb : Option JVal) :
    (jsWalk (some data) (jsSplitDot key) = some v → configGet data key fb = .ok v)
    ∧ (jsWalk (some data) (jsSplitDot key) = none →
        configGet data key (some d) = .ok d)
    ∧ (jsWalk (some data) (jsSplitDot key) = none →
        configGet data key none = .error (.undefinedConfigKey key)) := by
  refine ⟨?_, ?_, ?_⟩ <;> intro h <;> simp [configGet, h]

/-- Witness for `c8_accessor` on `{a: {b: 2}}`: a present nested key is
returned, a missing key returns the supplied fallback `7`, and a
missing key with no fallback fails naming the key. -/
theorem c8_accessor_witness :
    configGet (.obj [("a", .obj [("b", .num 2)])]) "a.b" none = .ok (.num 2)
    ∧ configGet (.obj [("a", .obj [("b", .num 2)])]) "missing.key" (some (.num 7))
      = .ok (.num 7)
    ∧ configGet (.obj [("a", .obj [("b", .num 2)])]) "missing.key" none
      = .error (.undefinedConfigKey "missing.key") := by
  refine
    ⟨(c8_accessor (.obj [("a", .obj [("b", .num 2)])]) (.num 2) (.num 7) "a.b"
        none).1 rfl,
     (c8_accessor (.obj [("a", .obj [("b", .num 2)])]) (.num 2) (.num 7)
        "missing.key" none).2.1 rfl,
     (c8_accessor (.obj [("a", .obj [("b", .num 2)])]) (.num 2) (.num 7)
        "missing.key" none).2.2 rfl⟩

/-- C9: the accessor decides presence solely by comparison with
`undefined`: a stored `null` at the requested path is returned as-is,
with any fallback unused and no error raised; and since the code tests
`defaultValue === undefined`, explicitly passing `undefined` as the
fallback is indistinguishable from supplying none (both are modelled by
the same `none` argument), so an absent path then fails with the
undefined-key error. -/
theorem c9_null_vs_undefined (data : JVal) (key : String) (fb : Option JVal) :
    (jsWalk (some data) (jsSplitDot key) = some .null →
      configGet data key fb = .ok .null)
    ∧ (jsWalk (some data) (jsSplitDot key) = none →
        configGet data key none = .error (.undefinedConfigKey key)) := by
  refine ⟨?_, ?_⟩ <;> intro h <;> simp [configGet, h]

/-- Witness for `c9_null_vs_undefined` on `{n: null}`: the stored
`null` is returned even though a fallback `7` is supplied, and a
missing key with the `undefined` fallback errors. -/
theorem c9_null_vs_undefined_witness :
    configGet (.obj [("n", .null)]) "n" (some (.num 7)) = .ok .null
    ∧ configGet (.obj [("n", .null)]) "z" none
      = .error (.undefinedConfigKey "z") := by
  refine
    ⟨(c9_null_vs_undefined (.obj [("n", .null)]) "n" (some (.num 7))).1 rfl,
     (c9_null_vs_undefined (.obj [("n", .null)]) "z" none).2 rfl⟩

/-- C10: with command-line processing enabled, the command-line source
merged into the candidate handed to the schema validator is the entire
parser output — including the positionals array under `_` and, when
`--config-json-file` is passed, a top-level `configJsonFile` key — so
keys that belong to no configuration source reach the validator. -/
theorem c10_cli_extra_keys :
    resolveConfig Except.ok {}
        { parsedArgs := [("_", .arr [.str "extra"]),
            ("configJsonFile", .str "given.json")],
          envConfigJsonFile := none,
          fsGet := fun _ => none }
      = .ok (.obj [("_", .arr [.str "extra"]),
          ("configJsonFile", .str "given.json")])
    ∧ objGet [("_", .arr [.str "extra"]), ("configJsonFile", .str "given.json")]
        "_" = some (.arr [.str "extra"])
    ∧ objGet [("_", .arr [.str "extra"]), ("configJsonFile", .str "given.json")]
        "configJsonFile" = some (.str "given.json") :=
  ⟨rfl, rfl, rfl⟩

end TypedConfig
